import Mathlib

/-!
Verification of the password generator in `app.py`.

The program has two pieces of logic:
  * `check_password_strength(password, level)` — a rule-based strength
    checker: three universal rejection rules (common-word denylist,
    3-in-a-row repetition via the regex `(.)\1\1`, keyboard patterns),
    then a level-specific character-diversity rule;
  * the `/generate` handler — builds an alphabet from four class flags,
    draws up to 100 random candidates of the requested length, returns
    the first accepted one, and otherwise performs one extra draw and
    returns it with a warning.

Passwords are modelled as `List Char` with Python's ASCII semantics for
`str.lower`, `isupper`, `islower`, `isdigit` and `string.punctuation`
(every candidate the program draws is ASCII).  Note that in Python's
`re`, the `.` in `(.)\1\1` does not match a newline, so a run of three
newline characters is NOT rejected by the repetition rule; the model
reproduces this.  The random source `secrets.choice` is modelled as an
explicit stream `rand : Nat → List Char → Char`: the k-th character
drawn in a request is `rand k char_set`.
-/

namespace PwGen

/-- Python `str.isupper` on an ASCII character: codepoints 65–90. -/
def isUpperA (c : Char) : Bool := 65 ≤ c.toNat && c.toNat ≤ 90

/-- Python `str.islower` on an ASCII character: codepoints 97–122. -/
def isLowerA (c : Char) : Bool := 97 ≤ c.toNat && c.toNat ≤ 122

/-- Python `str.isdigit` on an ASCII character: codepoints 48–57. -/
def isDigitA (c : Char) : Bool := 48 ≤ c.toNat && c.toNat ≤ 57

/-- Python `str.lower` on an ASCII character: map A–Z to a–z, keep the rest. -/
def toLowerA (c : Char) : Char :=
  if 65 ≤ c.toNat ∧ c.toNat ≤ 90 then Char.ofNat (c.toNat + 32) else c

/-- Python `str.lower` applied to a whole candidate. -/
def pyLower (s : List Char) : List Char := s.map toLowerA

/-- The module constant `COMMON_WORDS` of `app.py`. -/
def COMMON_WORDS : List (List Char) :=
  ["password".toList, "admin".toList, "welcome".toList, "123456".toList,
   "qwerty".toList, "user".toList, "guest".toList, "login".toList,
   "test".toList, "root".toList, "secret".toList, "dragon".toList,
   "shadow".toList, "ninja".toList, "football".toList, "monkey".toList,
   "master".toList, "sunshine".toList, "princess".toList, "love".toList]

/-- The module constant `KEYBOARD_PATTERNS` of `app.py`. -/
def KEYBOARD_PATTERNS : List (List Char) :=
  ["qwerty".toList, "asdfgh".toList, "zxcvbn".toList, "12345".toList,
   "qazwsx".toList]

/-- Does `w` occur at the very start of `s`?  Helper for Python's
substring test `w in s`. -/
def matchesAt : List Char → List Char → Bool
  | [], _ => true
  | _ :: _, [] => false
  | a :: as, b :: bs => a == b && matchesAt as bs

/-- Python's substring containment `w in s`: does `w` occur contiguously
anywhere in `s`? -/
def containsSub (w : List Char) : List Char → Bool
  | [] => matchesAt w []
  | b :: bs => matchesAt w (b :: bs) || containsSub w bs

/-- The repetition rule `re.search(r'(.)\1\1', password)`: some position
holds three equal consecutive characters, where the character matched by
`.` cannot be a newline (Python's `.` does not match a newline without
`re.DOTALL`). -/
def hasTriple : List Char → Bool
  | a :: b :: c :: t =>
      (decide (a = b ∧ b = c ∧ a ≠ '\n')) || hasTriple (b :: c :: t)
  | _ => false

/-- Python `string.punctuation`, the 32 ASCII punctuation characters in
codepoint order (codepoints 33–47, 58–64, 91–96, 123–126). -/
def punctuation : List Char :=
  ['!', '\x22', '#', '$', '%', '&', '\x27', '(', ')', '*', '+', ',',
   '-', '.', '/', ':', ';', '<', '=', '>', '?', '@', '[', '\x5c', ']',
   '^', '_', '\x60', '\x7b', '|', '\x7d', '~']

/-- Source line `has_upper = any(c.isupper() for c in password)`. -/
def has_upper (password : List Char) : Bool := password.any isUpperA

/-- Source line `has_lower = any(c.islower() for c in password)`. -/
def has_lower (password : List Char) : Bool := password.any isLowerA

/-- Source line `has_digit = any(c.isdigit() for c in password)`. -/
def has_digit (password : List Char) : Bool := password.any isDigitA

/-- Source line `has_symbol = any(c in string.punctuation for c in password)`. -/
def has_symbol (password : List Char) : Bool :=
  password.any (fun c => punctuation.contains c)

/-- Python `sum` over a list of booleans: count of the true ones. -/
def boolToNat (b : Bool) : Nat := if b then 1 else 0

/-- Source line `char_type_count = sum([has_upper, has_lower, has_digit, has_symbol])`. -/
def char_type_count (password : List Char) : Nat :=
  boolToNat (has_upper password) + boolToNat (has_lower password) +
    boolToNat (has_digit password) + boolToNat (has_symbol password)

/-- The checker `check_password_strength(password, level)` of `app.py`,
translated clause by clause: the three universal checks in source order,
then the level dispatch, with unknown levels rejected. -/
def check_password_strength (password : List Char) (level : String) : Bool :=
  if COMMON_WORDS.any (fun word => containsSub word (pyLower password)) then false
  else if hasTriple password then false
  else if KEYBOARD_PATTERNS.any (fun q => containsSub q (pyLower password)) then false
  else if level = "easy" then true
  else if level = "strong" then decide (3 ≤ char_type_count password)
  else if level = "max" then decide (char_type_count password = 4)
  else false

/-- Python `string.ascii_uppercase`, the literal A–Z. -/
def ascii_uppercase : List Char :=
  ['A', 'B', 'C', 'D', 'E', 'F', 'G', 'H', 'I', 'J', 'K', 'L', 'M',
   'N', 'O', 'P', 'Q', 'R', 'S', 'T', 'U', 'V', 'W', 'X', 'Y', 'Z']

/-- Python `string.ascii_lowercase`, the literal a–z. -/
def ascii_lowercase : List Char :=
  ['a', 'b', 'c', 'd', 'e', 'f', 'g', 'h', 'i', 'j', 'k', 'l', 'm',
   'n', 'o', 'p', 'q', 'r', 's', 't', 'u', 'v', 'w', 'x', 'y', 'z']

/-- Python `string.digits`, the literal 0–9. -/
def digits : List Char :=
  ['0', '1', '2', '3', '4', '5', '6', '7', '8', '9']

/-- The four request flags of the `/generate` handler. -/
structure Policy where
  use_upper : Bool
  use_lower : Bool
  use_numbers : Bool
  use_symbols : Bool
deriving DecidableEq, Repr

/-- The `char_set` accumulation of the handler: start from the empty
string and append each class whose flag is set, in source order. -/
def build_char_set (p : Policy) : List Char :=
  (if p.use_upper then ascii_uppercase else []) ++
  (if p.use_lower then ascii_lowercase else []) ++
  (if p.use_numbers then digits else []) ++
  (if p.use_symbols then punctuation else [])

/-- The three outcome shapes the handler can produce on a well-formed
request: the 400 error response, `\x7bpassword\x7d`, and
`\x7bpassword, warning\x7d`. -/
inductive GenResult where
  | error (msg : String)
  | ok (password : List Char)
  | okWarning (password : List Char)
deriving DecidableEq, Repr

/-- The error message of the empty-alphabet 400 response. -/
def emptyAlphabetMsg : String := "Please select at least one character type."

/-- One draw of `length` characters: `''.join(secrets.choice(char_set)
for i in range(length))`, where the stream position of the first
character is `base`. -/
def draw (rand : Nat → List Char → Char) (char_set : List Char)
    (base : Nat) (length : Nat) : List Char :=
  (List.range length).map (fun i => rand (base + i) char_set)

/-- The generation loop `for _ in range(100)` of the handler: candidate
`i` is checked while fuel remains; when the fuel is exhausted the next
(fresh) candidate is returned with the warning, unchecked. -/
def genLoop (accept : List Char → Bool) (cand : Nat → List Char) :
    Nat → Nat → GenResult
  | i, 0 => GenResult.okWarning (cand i)
  | i, fuel + 1 =>
      if accept (cand i) then GenResult.ok (cand i)
      else genLoop accept cand (i + 1) fuel

/-- The `/generate` handler of `app.py` after request parsing: build the
alphabet, fail with the 400 message when it is empty, otherwise run the
100-attempt loop and the fallback draw.  `length` is the parsed integer
(Python `range` of a negative number is empty, hence `Int.toNat`);
candidate `i` consumes stream positions `i*n .. i*n+n-1`, so the
fallback draw (candidate 100) uses fresh positions. -/
def generate_password (p : Policy) (length : Int) (level : String)
    (rand : Nat → List Char → Char) : GenResult :=
  if (build_char_set p).isEmpty then GenResult.error emptyAlphabetMsg
  else
    genLoop (fun pw => check_password_strength pw level)
      (fun i => draw rand (build_char_set p) (i * length.toNat) length.toNat)
      0 100

/-! Spec-side vocabulary, phrased after the specification's words rather
than the source: contiguous substring occurrence, runs of identical
characters, the four diversity predicates and their count. -/

/-- The word `w` occurs as a contiguous substring of `s`. -/
def SubstringOf (w s : List Char) : Prop := ∃ pre post, s = pre ++ w ++ post

/-- Spec predicate has-uppercase: some character is an ASCII capital. -/
def SpecHasUpper (s : List Char) : Prop := ∃ c ∈ s, 65 ≤ c.toNat ∧ c.toNat ≤ 90

/-- Spec predicate has-lowercase: some character is an ASCII small letter. -/
def SpecHasLower (s : List Char) : Prop := ∃ c ∈ s, 97 ≤ c.toNat ∧ c.toNat ≤ 122

/-- Spec predicate has-digit: some character is an ASCII digit. -/
def SpecHasDigit (s : List Char) : Prop := ∃ c ∈ s, 48 ≤ c.toNat ∧ c.toNat ≤ 57

/-- Spec predicate has-symbol: some character is in the fixed punctuation set. -/
def SpecHasSymbol (s : List Char) : Prop := ∃ c ∈ s, c ∈ punctuation

instance (s : List Char) : Decidable (SpecHasUpper s) :=
  decidable_of_iff (∃ c ∈ s, 65 ≤ c.toNat ∧ c.toNat ≤ 90) Iff.rfl

instance (s : List Char) : Decidable (SpecHasLower s) :=
  decidable_of_iff (∃ c ∈ s, 97 ≤ c.toNat ∧ c.toNat ≤ 122) Iff.rfl

instance (s : List Char) : Decidable (SpecHasDigit s) :=
  decidable_of_iff (∃ c ∈ s, 48 ≤ c.toNat ∧ c.toNat ≤ 57) Iff.rfl

instance (s : List Char) : Decidable (SpecHasSymbol s) :=
  decidable_of_iff (∃ c ∈ s, c ∈ punctuation) Iff.rfl

/-- The spec's `diversity`: the count of the four predicates that hold. -/
def specDiversity (s : List Char) : Nat :=
  (if SpecHasUpper s then 1 else 0) + (if SpecHasLower s then 1 else 0) +
    (if SpecHasDigit s then 1 else 0) + (if SpecHasSymbol s then 1 else 0)

/-- The spec's level-specific condition: easy asks nothing further,
strong asks diversity at least 3, max asks diversity exactly 4, every
other level is rejected. -/
def LevelOk (s : List Char) (level : String) : Prop :=
  level = "easy" ∨ (level = "strong" ∧ 3 ≤ specDiversity s) ∨
    (level = "max" ∧ specDiversity s = 4)

lemma matchesAt_iff (w s : List Char) :
    matchesAt w s = true ↔ ∃ rest, s = w ++ rest := by
  induction w generalizing s with
  | nil => simp [matchesAt]
  | cons a as ih =>
    cases s with
    | nil =>
      simp [matchesAt]
    | cons b bs =>
      simp only [matchesAt, Bool.and_eq_true, beq_iff_eq, ih]
      constructor
      · rintro ⟨rfl, rest, rfl⟩
        exact ⟨rest, rfl⟩
      · rintro ⟨rest, h⟩
        rw [List.cons_append] at h
        cases h
        exact ⟨rfl, rest, rfl⟩

lemma containsSub_iff (w s : List Char) :
    containsSub w s = true ↔ SubstringOf w s := by
  induction s with
  | nil =>
    simp only [containsSub, matchesAt_iff, SubstringOf]
    constructor
    · rintro ⟨rest, h⟩
      exact ⟨[], rest, by simpa using h⟩
    · rintro ⟨pre, post, h⟩
      refine ⟨post, ?_⟩
      rcases List.append_eq_nil.mp (List.append_eq_nil.mp h.symm).1 with ⟨h1, h2⟩
      simp [h1, h2] at h ⊢
      exact h
  | cons b bs ih =>
    simp only [containsSub, Bool.or_eq_true, matchesAt_iff, ih, SubstringOf]
    constructor
    · rintro (⟨rest, h⟩ | ⟨pre, post, h⟩)
      · exact ⟨[], rest, by simpa using h⟩
      · exact ⟨b :: pre, post, by simp [h]⟩
    · rintro ⟨pre, post, h⟩
      cases pre with
      | nil => exact Or.inl ⟨post, by simpa using h⟩
      | cons p ps =>
        rw [List.cons_append, List.cons_append] at h
        cases h
        exact Or.inr ⟨ps, post, rfl⟩

lemma hasTriple_cons (a : Char) (t : List Char) (h : hasTriple t = true) :
    hasTriple (a :: t) = true := by
  match t with
  | [] => simp [hasTriple] at h
  | [b] => simp [hasTriple] at h
  | [b, c] => simp [hasTriple] at h
  | b :: c :: d :: r =>
    show (decide (a = b ∧ b = c ∧ a ≠ '\n') || hasTriple (b :: c :: d :: r)) = true
    simp [h]

lemma hasTriple_iff (s : List Char) :
    hasTriple s = true ↔ ∃ c, c ≠ '\n' ∧ SubstringOf [c, c, c] s := by
  constructor
  · intro h
    induction s with
    | nil => simp [hasTriple] at h
    | cons a t ih =>
      match t, h with
      | [], h => simp [hasTriple] at h
      | [b], h => simp [hasTriple] at h
      | b :: c :: r, h =>
        rw [show hasTriple (a :: b :: c :: r) =
              (decide (a = b ∧ b = c ∧ a ≠ '\n') || hasTriple (b :: c :: r))
            from rfl, Bool.or_eq_true, decide_eq_true_iff] at h
        rcases h with ⟨rfl, rfl, hne⟩ | h
        · exact ⟨a, hne, [], r, rfl⟩
        · rcases ih h with ⟨ch, hne, pre, post, heq⟩
          exact ⟨ch, hne, a :: pre, post, by simp [heq]⟩
  · rintro ⟨c, hne, pre, post, rfl⟩
    induction pre with
    | nil =>
      show (decide (c = c ∧ c = c ∧ c ≠ '\n') || hasTriple (c :: c :: post)) = true
      simp [hne]
    | cons p ps ih =>
      exact hasTriple_cons p _ ih

lemma boolToNat_eq_ite (b : Bool) (P : Prop) [Decidable P]
    (h : b = true ↔ P) : boolToNat b = if P then 1 else 0 := by
  cases b
  · simp [boolToNat, ← h]
  · simp [boolToNat, ← h]

lemma char_type_count_eq_specDiversity (s : List Char) :
    char_type_count s = specDiversity s := by
  have hu : has_upper s = true ↔ SpecHasUpper s := by
    simp [has_upper, isUpperA, SpecHasUpper, List.any_eq_true]
  have hl : has_lower s = true ↔ SpecHasLower s := by
    simp [has_lower, isLowerA, SpecHasLower, List.any_eq_true]
  have hd : has_digit s = true ↔ SpecHasDigit s := by
    simp [has_digit, isDigitA, SpecHasDigit, List.any_eq_true]
  have hs : has_symbol s = true ↔ SpecHasSymbol s := by
    simp [has_symbol, SpecHasSymbol, List.any_eq_true, List.elem_iff]
  unfold char_type_count specDiversity
  rw [boolToNat_eq_ite _ _ hu, boolToNat_eq_ite _ _ hl,
    boolToNat_eq_ite _ _ hd, boolToNat_eq_ite _ _ hs]

lemma check_eq_true_iff (s : List Char) (level : String) :
    check_password_strength s level = true ↔
      (COMMON_WORDS.any (fun word => containsSub word (pyLower s)) = false ∧
       hasTriple s = false ∧
       KEYBOARD_PATTERNS.any (fun q => containsSub q (pyLower s)) = false ∧
       LevelOk s level) := by
  unfold check_password_strength LevelOk
  rw [← char_type_count_eq_specDiversity]
  split_ifs with h1 h2 h3 h4 h5 h6 <;> simp_all

lemma genLoop_shape (accept : List Char → Bool) (cand : Nat → List Char)
    (i fuel : Nat) :
    (∃ pw, genLoop accept cand i fuel = GenResult.ok pw) ∨
      (∃ pw, genLoop accept cand i fuel = GenResult.okWarning pw) := by
  induction fuel generalizing i with
  | zero => exact Or.inr ⟨cand i, rfl⟩
  | succ fuel ih =>
    rw [genLoop]
    by_cases h : accept (cand i) = true
    · rw [if_pos h]
      exact Or.inl ⟨cand i, rfl⟩
    · rw [if_neg h]
      exact ih (i + 1)

lemma genLoop_ok (accept : List Char → Bool) (cand : Nat → List Char)
    (i fuel : Nat) (pw : List Char)
    (h : genLoop accept cand i fuel = GenResult.ok pw) :
    accept pw = true ∧ ∃ j, i ≤ j ∧ j < i + fuel ∧ pw = cand j := by
  induction fuel generalizing i with
  | zero => simp [genLoop] at h
  | succ fuel ih =>
    by_cases hc : accept (cand i) = true
    · simp [genLoop, hc] at h
      subst h
      exact ⟨hc, i, le_refl i, by omega, rfl⟩
    · simp [genLoop, hc] at h
      rcases ih (i + 1) h with ⟨ha, j, hj1, hj2, hj3⟩
      exact ⟨ha, j, by omega, by omega, hj3⟩

lemma genLoop_warn (accept : List Char → Bool) (cand : Nat → List Char)
    (i fuel : Nat) (pw : List Char)
    (h : genLoop accept cand i fuel = GenResult.okWarning pw) :
    pw = cand (i + fuel) ∧
      ∀ j, i ≤ j → j < i + fuel → accept (cand j) = false := by
  induction fuel generalizing i with
  | zero =>
    simp [genLoop] at h
    refine ⟨by simpa using h.symm, ?_⟩
    intro j hj1 hj2
    omega
  | succ fuel ih =>
    by_cases hc : accept (cand i) = true
    · simp [genLoop, hc] at h
    · simp [genLoop, hc] at h
      rcases ih (i + 1) h with ⟨h1, h2⟩
      refine ⟨by rw [show i + (fuel + 1) = i + 1 + fuel by omega]; exact h1, ?_⟩
      intro j hj1 hj2
      rcases Nat.eq_or_lt_of_le hj1 with rfl | hlt
      · simpa using hc
      · exact h2 j hlt (by omega)

lemma genLoop_all_fail (accept : List Char → Bool) (cand : Nat → List Char)
    (i fuel : Nat)
    (h : ∀ j, i ≤ j → j < i + fuel → accept (cand j) = false) :
    genLoop accept cand i fuel = GenResult.okWarning (cand (i + fuel)) := by
  induction fuel generalizing i with
  | zero => rfl
  | succ fuel ih =>
    have hc : accept (cand i) = false := h i (le_refl i) (by omega)
    rw [genLoop, hc]
    simp only [Bool.false_eq_true, if_false]
    rw [ih (i + 1) (fun j hj1 hj2 => h j (by omega) (by omega))]
    rw [show i + 1 + fuel = i + (fuel + 1) by omega]

lemma genLoop_congr (accept : List Char → Bool) (cand cand' : Nat → List Char)
    (i fuel : Nat) (h : ∀ j, i ≤ j → j ≤ i + fuel → cand j = cand' j) :
    genLoop accept cand i fuel = genLoop accept cand' i fuel := by
  induction fuel generalizing i with
  | zero => simp [genLoop, h i (le_refl i) (by omega)]
  | succ fuel ih =>
    rw [genLoop, genLoop, h i (le_refl i) (by omega),
      ih (i + 1) (fun j hj1 hj2 => h j (by omega) (by omega))]

lemma draw_length (rand : Nat → List Char → Char) (cs : List Char)
    (base n : Nat) : (draw rand cs base n).length = n := by
  simp [draw]

lemma draw_mem (rand : Nat → List Char → Char) (cs : List Char)
    (base n : Nat) (h : ∀ k, rand k cs ∈ cs) :
    ∀ c ∈ draw rand cs base n, c ∈ cs := by
  intro c hc
  simp [draw] at hc
  rcases hc with ⟨i, _, rfl⟩
  exact h (base + i)

lemma draw_congr (rand rand' : Nat → List Char → Char) (cs : List Char)
    (base n : Nat) (h : ∀ k, base ≤ k → k < base + n → rand k cs = rand' k cs) :
    draw rand cs base n = draw rand' cs base n := by
  simp only [draw]
  apply List.map_congr_left
  intro i hi
  simp at hi
  exact h (base + i) (by omega) (by omega)

lemma build_char_set_mem (p : Policy) (c : Char) (h : c ∈ build_char_set p) :
    c ∈ ascii_uppercase ∨ c ∈ ascii_lowercase ∨ c ∈ digits ∨ c ∈ punctuation := by
  simp only [build_char_set, List.mem_append] at h
  rcases h with ((h | h) | h) | h <;>
    [skip; skip; skip; skip] <;>
    first
      | (left; revert h; split <;> simp_all)
      | (right; left; revert h; split <;> simp_all)
      | (right; right; left; revert h; split <;> simp_all)
      | (right; right; right; revert h; split <;> simp_all)

lemma newline_not_in_char_set (p : Policy) : '\n' ∉ build_char_set p := by
  intro h
  rcases build_char_set_mem p _ h with h | h | h | h <;> revert h <;> decide

lemma generate_eq (p : Policy) (len : Int) (level : String)
    (rand : Nat → List Char → Char) (h : build_char_set p ≠ []) :
    generate_password p len level rand =
      genLoop (fun pw => check_password_strength pw level)
        (fun i => draw rand (build_char_set p) (i * len.toNat) len.toNat)
        0 100 := by
  unfold generate_password
  rw [if_neg]
  simpa using h

/-! Spec-side character classes for the alphabet claim, phrased as the
specification describes them: the codepoint ranges A–Z, a–z, 0–9 and the
ASCII punctuation blocks. -/

/-- The class upper described as the codepoint range A–Z. -/
def upperSpecClass : List Char := (List.range 26).map (fun i => Char.ofNat (65 + i))

/-- The class lower described as the codepoint range a–z. -/
def lowerSpecClass : List Char := (List.range 26).map (fun i => Char.ofNat (97 + i))

/-- The class digit described as the codepoint range 0–9. -/
def digitSpecClass : List Char := (List.range 10).map (fun i => Char.ofNat (48 + i))

/-- The class symbol described as the ASCII punctuation codepoint blocks
33–47, 58–64, 91–96 and 123–126, in order. -/
def symbolSpecClass : List Char :=
  ((List.range 127).filter (fun n =>
    (33 ≤ n && n ≤ 47) || (58 ≤ n && n ≤ 64) ||
      (91 ≤ n && n ≤ 96) || (123 ≤ n && n ≤ 126))).map Char.ofNat

lemma substringOf_length_le (w s : List Char) (h : SubstringOf w s) :
    w.length ≤ s.length := by
  rcases h with ⟨pre, post, rfl⟩
  simp
  omega

lemma substringOf_mem (w s : List Char) (h : SubstringOf w s) :
    ∀ c ∈ w, c ∈ s := by
  rcases h with ⟨pre, post, rfl⟩
  intro c hc
  simp [hc]

lemma short_passes_easy (s : List Char) (h : s.length ≤ 2) :
    check_password_strength s "easy" = true := by
  rw [check_eq_true_iff]
  have hlow : (pyLower s).length = s.length := by simp [pyLower]
  refine ⟨?_, ?_, ?_, Or.inl rfl⟩
  · rw [← Bool.not_eq_true, List.any_eq_true]
    rintro ⟨w, hw, hsub⟩
    have h4 : 4 ≤ w.length := by
      have : ∀ u ∈ COMMON_WORDS, 4 ≤ u.length := by decide
      exact this w hw
    have := substringOf_length_le w _ ((containsSub_iff _ _).mp hsub)
    omega
  · match s, h with
    | [], _ => rfl
    | [a], _ => rfl
    | [a, b], _ => rfl
    | a :: b :: c :: t, h => simp at h
  · rw [← Bool.not_eq_true, List.any_eq_true]
    rintro ⟨q, hq, hsub⟩
    have h5 : 5 ≤ q.length := by
      have : ∀ u ∈ KEYBOARD_PATTERNS, 5 ≤ u.length := by decide
      exact this q hq
    have := substringOf_length_le q _ ((containsSub_iff _ _).mp hsub)
    omega

lemma all_digits_check_max_false (s : List Char) (h : ∀ c ∈ s, c ∈ digits) :
    check_password_strength s "max" = false := by
  have hu : has_upper s = false := by
    rw [← Bool.not_eq_true, has_upper, List.any_eq_true]
    rintro ⟨c, hc, hcu⟩
    have hnu : ∀ c ∈ digits, isUpperA c = false := by decide
    rw [hnu c (h c hc)] at hcu
    cases hcu
  have hl : has_lower s = false := by
    rw [← Bool.not_eq_true, has_lower, List.any_eq_true]
    rintro ⟨c, hc, hcl⟩
    have hnl : ∀ c ∈ digits, isLowerA c = false := by decide
    rw [hnl c (h c hc)] at hcl
    cases hcl
  have hs : has_symbol s = false := by
    rw [← Bool.not_eq_true, has_symbol, List.any_eq_true]
    rintro ⟨c, hc, hcs⟩
    have hns : ∀ c ∈ digits, punctuation.contains c = false := by decide
    rw [hns c (h c hc)] at hcs
    cases hcs
  have hcount : char_type_count s ≠ 4 := by
    unfold char_type_count
    rw [hu, hl, hs]
    cases hb : has_digit s <;> simp [boolToNat]
  unfold check_password_strength
  split_ifs with a b c d e f
  · rfl
  · rfl
  · rfl
  · exact absurd d (by decide)
  · exact absurd e (by decide)
  · exact decide_eq_false hcount
  · rfl

/-- C1 (counterexample): the claim's characterization fails as stated.
At the candidate of three newline characters with level easy, the checker
accepts (Python's regex dot does not match a newline, so the repetition
rule never fires on newline runs), yet the candidate does contain a
character repeated three times consecutively, so the claimed right-hand
side is false. -/
theorem c1_checker_iff_counterexample :
    ¬ (check_password_strength ['\n', '\n', '\n'] "easy" = true ↔
        ((∀ w ∈ COMMON_WORDS, ¬ SubstringOf w (pyLower ['\n', '\n', '\n'])) ∧
         (∀ c : Char, ¬ SubstringOf [c, c, c] ['\n', '\n', '\n']) ∧
         (∀ q ∈ KEYBOARD_PATTERNS, ¬ SubstringOf q (pyLower ['\n', '\n', '\n'])) ∧
         LevelOk ['\n', '\n', '\n'] "easy")) := by
  intro hIff
  have h := hIff.mp (by decide)
  exact h.2.1 '\n' ⟨[], [], rfl⟩

/-- C1 (amended): the checker accepts exactly when the lowercased
candidate contains no denylisted common word as a substring, no character
OTHER THAN NEWLINE repeats three or more times consecutively, the
lowercased candidate contains no keyboard-pattern entry as a substring,
and the level-specific diversity condition holds (easy: nothing; strong:
diversity at least 3; max: diversity exactly 4; anything else rejected). -/
theorem c1_checker_iff (s : List Char) (level : String) :
    check_password_strength s level = true ↔
      ((∀ w ∈ COMMON_WORDS, ¬ SubstringOf w (pyLower s)) ∧
       (∀ c : Char, c ≠ '\n' → ¬ SubstringOf [c, c, c] s) ∧
       (∀ q ∈ KEYBOARD_PATTERNS, ¬ SubstringOf q (pyLower s)) ∧
       LevelOk s level) := by
  rw [check_eq_true_iff]
  constructor
  · rintro ⟨h1, h2, h3, h4⟩
    refine ⟨?_, ?_, ?_, h4⟩
    · intro w hw hsub
      have : COMMON_WORDS.any (fun word => containsSub word (pyLower s)) = true :=
        List.any_eq_true.mpr ⟨w, hw, (containsSub_iff _ _).mpr hsub⟩
      rw [h1] at this
      cases this
    · intro c hc hsub
      have : hasTriple s = true := (hasTriple_iff s).mpr ⟨c, hc, hsub⟩
      rw [h2] at this
      cases this
    · intro q hq hsub
      have : KEYBOARD_PATTERNS.any (fun u => containsSub u (pyLower s)) = true :=
        List.any_eq_true.mpr ⟨q, hq, (containsSub_iff _ _).mpr hsub⟩
      rw [h3] at this
      cases this
  · rintro ⟨h1, h2, h3, h4⟩
    refine ⟨?_, ?_, ?_, h4⟩
    · rw [← Bool.not_eq_true, List.any_eq_true]
      rintro ⟨w, hw, hsub⟩
      exact h1 w hw ((containsSub_iff _ _).mp hsub)
    · rw [← Bool.not_eq_true, hasTriple_iff]
      rintro ⟨c, hc, hsub⟩
      exact h2 c hc hsub
    · rw [← Bool.not_eq_true, List.any_eq_true]
      rintro ⟨q, hq, hsub⟩
      exact h3 q hq ((containsSub_iff _ _).mp hsub)

/-- C2: with a non-empty alphabet the call returns one of exactly two
shapes, an accepted password or a warning-flagged password, and the whole
result is a function of the first 101 candidate draws only (the random
stream below position 101 times the length): a loop of at most 100
checked attempts plus at most one fallback draw. -/
theorem c2_shape_and_budget (p : Policy) (len : Int) (level : String)
    (rand : Nat → List Char → Char) (h : build_char_set p ≠ []) :
    ((∃ pw, generate_password p len level rand = GenResult.ok pw) ∨
      (∃ pw, generate_password p len level rand = GenResult.okWarning pw)) ∧
    (∀ rand' : Nat → List Char → Char,
      (∀ k, k < 101 * len.toNat → ∀ cs, rand k cs = rand' k cs) →
      generate_password p len level rand = generate_password p len level rand') := by
  constructor
  · rw [generate_eq p len level rand h]
    exact genLoop_shape _ _ 0 100
  · intro rand' hagree
    rw [generate_eq p len level rand h, generate_eq p len level rand' h]
    apply genLoop_congr
    intro j hj0 hj100
    apply draw_congr
    intro k hk1 hk2
    have hle : (j + 1) * len.toNat ≤ 101 * len.toNat :=
      Nat.mul_le_mul_right _ (by omega)
    have heq : j * len.toNat + len.toNat = (j + 1) * len.toNat := by ring
    exact hagree k (by omega) _

/-- C2 witness at a concrete policy, length and stream. -/
theorem c2_witness :
    ((∃ pw, generate_password ⟨true, true, true, true⟩ 0 "easy"
        (fun _ _ => 'a') = GenResult.ok pw) ∨
      (∃ pw, generate_password ⟨true, true, true, true⟩ 0 "easy"
        (fun _ _ => 'a') = GenResult.okWarning pw)) ∧
    (∀ rand' : Nat → List Char → Char,
      (∀ k, k < 101 * (0 : Int).toNat → ∀ cs, (fun _ _ => 'a' : Nat → List Char → Char) k cs = rand' k cs) →
      generate_password ⟨true, true, true, true⟩ 0 "easy" (fun _ _ => 'a') =
        generate_password ⟨true, true, true, true⟩ 0 "easy" rand') :=
  c2_shape_and_budget ⟨true, true, true, true⟩ 0 "easy" (fun _ _ => 'a')
    (by decide)

/-- C3: a password returned in the success shape was accepted by the
checker, hence at level max its diversity is 4, at level strong at least
3, and at every level it contains no run of three identical characters of
any kind and no denylisted word or keyboard pattern as a case-insensitive
substring. -/
theorem c3_success_accepted (p : Policy) (len : Int) (level : String)
    (rand : Nat → List Char → Char)
    (hrand : ∀ k, rand k (build_char_set p) ∈ build_char_set p)
    (pw : List Char)
    (h : generate_password p len level rand = GenResult.ok pw) :
    check_password_strength pw level = true ∧
    (level = "max" → specDiversity pw = 4) ∧
    (level = "strong" → 3 ≤ specDiversity pw) ∧
    (∀ c : Char, ¬ SubstringOf [c, c, c] pw) ∧
    (∀ w ∈ COMMON_WORDS, ¬ SubstringOf w (pyLower pw)) ∧
    (∀ q ∈ KEYBOARD_PATTERNS, ¬ SubstringOf q (pyLower pw)) := by
  have hne : build_char_set p ≠ [] := by
    intro hempty
    rw [generate_password, if_pos (by simp [hempty])] at h
    cases h
  rw [generate_eq p len level rand hne] at h
  rcases genLoop_ok _ _ _ _ _ h with ⟨hacc, j, _, _, rfl⟩
  have hmem : ∀ c ∈ draw rand (build_char_set p) (j * len.toNat) len.toNat,
      c ∈ build_char_set p := draw_mem _ _ _ _ hrand
  rcases (c1_checker_iff _ _).mp hacc with ⟨h1, h2, h3, h4⟩
  refine ⟨hacc, ?_, ?_, ?_, h1, h3⟩
  · intro hmax
    rcases h4 with hE | ⟨hS, _⟩ | ⟨_, hD⟩
    · rw [hmax] at hE
      exact absurd hE (by decide)
    · rw [hmax] at hS
      exact absurd hS (by decide)
    · exact hD
  · intro hstrong
    rcases h4 with hE | ⟨_, hD⟩ | ⟨hM, hD⟩
    · rw [hstrong] at hE
      exact absurd hE (by decide)
    · exact hD
    · rw [hstrong] at hM
      exact absurd hM (by decide)
  · intro c hsub
    by_cases hcn : c = '\n'
    · subst hcn
      have : '\n' ∈ build_char_set p :=
        hmem _ (substringOf_mem _ _ hsub '\n' (by simp))
      exact newline_not_in_char_set p this
    · exact h2 c hcn hsub

/-- C3 witness at a concrete accepting run. -/
theorem c3_witness :
    check_password_strength ['A'] "easy" = true ∧
    ("easy" = "max" → specDiversity ['A'] = 4) ∧
    ("easy" = "strong" → 3 ≤ specDiversity ['A']) ∧
    (∀ c : Char, ¬ SubstringOf [c, c, c] ['A']) ∧
    (∀ w ∈ COMMON_WORDS, ¬ SubstringOf w (pyLower ['A'])) ∧
    (∀ q ∈ KEYBOARD_PATTERNS, ¬ SubstringOf q (pyLower ['A'])) :=
  c3_success_accepted ⟨true, true, true, true⟩ 1 "easy" (fun _ _ => 'A')
    (fun _ => by show 'A' ∈ build_char_set ⟨true, true, true, true⟩; decide)
    ['A'] (by decide)

/-- C4: the derived alphabet is the concatenation, in the fixed order
upper, lower, digit, symbol, of exactly the classes whose flags are true,
each class being the codepoint range the specification describes; and
with all four flags false every call fails with the empty-alphabet error,
for every length, level and random stream alike (so before any draw). -/
theorem c4_alphabet (p : Policy) :
    (build_char_set p =
      (if p.use_upper then upperSpecClass else []) ++
      (if p.use_lower then lowerSpecClass else []) ++
      (if p.use_numbers then digitSpecClass else []) ++
      (if p.use_symbols then symbolSpecClass else [])) ∧
    ((p.use_upper = false ∧ p.use_lower = false ∧ p.use_numbers = false ∧
        p.use_symbols = false) →
      ∀ (len : Int) (level : String) (rand : Nat → List Char → Char),
        generate_password p len level rand = GenResult.error emptyAlphabetMsg) := by
  constructor
  · have hU : ascii_uppercase = upperSpecClass := by decide
    have hL : ascii_lowercase = lowerSpecClass := by decide
    have hD : digits = digitSpecClass := by decide
    have hS : punctuation = symbolSpecClass := by decide
    rw [build_char_set, hU, hL, hD, hS]
  · rintro ⟨h1, h2, h3, h4⟩ len level rand
    obtain ⟨u, l, n, s⟩ := p
    simp only at h1 h2 h3 h4
    subst h1
    subst h2
    subst h3
    subst h4
    rfl

/-- C5 (counterexample): at level easy with a non-empty alphabet, an
adversarial draw stream can still reach the warning path, contradicting
"for every sequence of random draws the success shape is returned": with
only lowercase enabled, length 3 and every drawn character equal to the
letter a, all 100 attempts are the triple-letter candidate, which the
repetition rule rejects, so the call returns the warning shape. -/
theorem c5_easy_counterexample :
    generate_password ⟨false, true, false, false⟩ 3 "easy" (fun _ _ => 'a') =
        GenResult.okWarning ['a', 'a', 'a'] ∧
      (∀ k, (fun _ _ => 'a' : Nat → List Char → Char) k
          (build_char_set ⟨false, true, false, false⟩) ∈
            build_char_set ⟨false, true, false, false⟩) := by
  constructor
  · decide
  · intro k
    show 'a' ∈ build_char_set ⟨false, true, false, false⟩
    decide

/-- C5 (amended): at level easy with at least one class flag true and any
length, the call never errors, and it returns the success shape whenever
some of the first 100 draws passes the universal rules — in particular,
whenever the requested length is at most 2 the very first draw passes, so
the call returns success for every random stream.  For longer lengths a
draw sequence that always violates a universal rule reaches the warning
fallback instead. -/
theorem c5_easy_success (p : Policy) (len : Int)
    (rand : Nat → List Char → Char) (h : build_char_set p ≠ []) :
    (∀ msg, generate_password p len "easy" rand ≠ GenResult.error msg) ∧
    ((∃ i, i < 100 ∧ check_password_strength
        (draw rand (build_char_set p) (i * len.toNat) len.toNat) "easy" = true) →
      ∃ pw, generate_password p len "easy" rand = GenResult.ok pw ∧
        check_password_strength pw "easy" = true) ∧
    (len.toNat ≤ 2 →
      generate_password p len "easy" rand =
        GenResult.ok (draw rand (build_char_set p) 0 len.toNat)) := by
  have hres := genLoop_shape
    (fun pw => check_password_strength pw "easy")
    (fun i => draw rand (build_char_set p) (i * len.toNat) len.toNat) 0 100
  refine ⟨?_, ?_, ?_⟩
  · intro msg heq
    rw [generate_eq p len "easy" rand h] at heq
    rcases hres with ⟨pw0, h0⟩ | ⟨pw0, h0⟩ <;> rw [h0] at heq <;> cases heq
  · rintro ⟨i, hi, hpass⟩
    rw [generate_eq p len "easy" rand h]
    rcases hres with ⟨pw0, h0⟩ | ⟨pw0, h0⟩
    · rcases genLoop_ok _ _ _ _ _ h0 with ⟨hacc, _, _, _, _⟩
      exact ⟨pw0, h0, hacc⟩
    · rcases genLoop_warn _ _ _ _ _ h0 with ⟨_, hall⟩
      have := hall i (by omega) (by omega)
      rw [hpass] at this
      cases this
  · intro hlen
    rw [generate_eq p len "easy" rand h]
    have hacc : check_password_strength
        (draw rand (build_char_set p) (0 * len.toNat) len.toNat) "easy" = true :=
      short_passes_easy _ (by rw [draw_length]; exact hlen)
    show genLoop _ _ 0 (99 + 1) = _
    rw [genLoop, if_pos hacc, Nat.zero_mul]

/-- C5 witness at a concrete request at full alphabet and length 2. -/
theorem c5_witness :
    (∀ msg, generate_password ⟨true, true, true, true⟩ 2 "easy"
        (fun _ _ => 'a') ≠ GenResult.error msg) ∧
    ((∃ i, i < 100 ∧ check_password_strength
        (draw (fun _ _ => 'a') (build_char_set ⟨true, true, true, true⟩)
          (i * Int.toNat 2) (Int.toNat 2)) "easy" = true) →
      ∃ pw, generate_password ⟨true, true, true, true⟩ 2 "easy"
          (fun _ _ => 'a') = GenResult.ok pw ∧
        check_password_strength pw "easy" = true) ∧
    (Int.toNat 2 ≤ 2 →
      generate_password ⟨true, true, true, true⟩ 2 "easy" (fun _ _ => 'a') =
        GenResult.ok (draw (fun _ _ => 'a')
          (build_char_set ⟨true, true, true, true⟩) 0 (Int.toNat 2))) :=
  c5_easy_success ⟨true, true, true, true⟩ 2 (fun _ _ => 'a') (by decide)

/-- C6: when all 100 checked attempts fail, the call returns the warning
together with a further, fresh draw — the candidate at stream index 100,
not any of the rejected candidates 0 to 99 — unchecked; and that draw
reads only random-stream positions from 100 times the length onwards, so
it is independent of the stream positions the 100 rejected attempts
consumed. -/
theorem c6_fresh_fallback (p : Policy) (len : Int) (level : String)
    (rand : Nat → List Char → Char) (h : build_char_set p ≠ [])
    (hfail : ∀ i, i < 100 →
      check_password_strength
        (draw rand (build_char_set p) (i * len.toNat) len.toNat) level = false) :
    generate_password p len level rand =
      GenResult.okWarning
        (draw rand (build_char_set p) (100 * len.toNat) len.toNat) ∧
    (∀ rand' : Nat → List Char → Char,
      (∀ k, 100 * len.toNat ≤ k →
        rand k (build_char_set p) = rand' k (build_char_set p)) →
      draw rand (build_char_set p) (100 * len.toNat) len.toNat =
        draw rand' (build_char_set p) (100 * len.toNat) len.toNat) := by
  constructor
  · rw [generate_eq p len level rand h]
    have := genLoop_all_fail
      (fun pw => check_password_strength pw level)
      (fun i => draw rand (build_char_set p) (i * len.toNat) len.toNat)
      0 100 (fun j _ hj2 => hfail j (by omega))
    simpa using this
  · intro rand' hagree
    exact draw_congr _ _ _ _ _ (fun k hk1 _ => hagree k hk1)

/-- C6 witness: digits only at level max, so every attempt fails. -/
theorem c6_witness :
    generate_password ⟨false, false, true, false⟩ 2 "max" (fun _ _ => '1') =
      GenResult.okWarning
        (draw (fun _ _ => '1') (build_char_set ⟨false, false, true, false⟩)
          (100 * Int.toNat 2) (Int.toNat 2)) ∧
    (∀ rand' : Nat → List Char → Char,
      (∀ k, 100 * Int.toNat 2 ≤ k →
        (fun _ _ => '1' : Nat → List Char → Char) k
            (build_char_set ⟨false, false, true, false⟩) =
          rand' k (build_char_set ⟨false, false, true, false⟩)) →
      draw (fun _ _ => '1') (build_char_set ⟨false, false, true, false⟩)
          (100 * Int.toNat 2) (Int.toNat 2) =
        draw rand' (build_char_set ⟨false, false, true, false⟩)
          (100 * Int.toNat 2) (Int.toNat 2)) :=
  c6_fresh_fallback ⟨false, false, true, false⟩ 2 "max" (fun _ _ => '1')
    (by decide) (by decide)

/-- C7: for a level other than easy, strong and max the checker rejects
every candidate, and consequently generation with a non-empty alphabet
never succeeds in the loop and always returns the warning fallback. -/
theorem c7_unknown_level (level : String) (h1 : level ≠ "easy")
    (h2 : level ≠ "strong") (h3 : level ≠ "max") :
    (∀ s : List Char, check_password_strength s level = false) ∧
    (∀ (p : Policy) (len : Int) (rand : Nat → List Char → Char),
      build_char_set p ≠ [] →
      generate_password p len level rand =
        GenResult.okWarning
          (draw rand (build_char_set p) (100 * len.toNat) len.toNat)) := by
  have hchk : ∀ s : List Char, check_password_strength s level = false := by
    intro s
    unfold check_password_strength
    split_ifs <;> rfl
  refine ⟨hchk, ?_⟩
  intro p len rand hne
  rw [generate_eq p len level rand hne]
  have := genLoop_all_fail
    (fun pw => check_password_strength pw level)
    (fun i => draw rand (build_char_set p) (i * len.toNat) len.toNat)
    0 100 (fun j _ _ => hchk _)
  simpa using this

/-- C7 witness at the concrete unknown level medium. -/
theorem c7_witness :
    (∀ s : List Char, check_password_strength s "medium" = false) ∧
    (∀ (p : Policy) (len : Int) (rand : Nat → List Char → Char),
      build_char_set p ≠ [] →
      generate_password p len "medium" rand =
        GenResult.okWarning
          (draw rand (build_char_set p) (100 * len.toNat) len.toNat)) :=
  c7_unknown_level "medium" (by decide) (by decide) (by decide)

/-- C8: with only the digits class enabled and level max, no drawn
candidate can have diversity 4, so for every length and every random
stream the call returns the warning fallback shape. -/
theorem c8_digits_only_max (len : Int) (rand : Nat → List Char → Char)
    (hrand : ∀ k, rand k (build_char_set ⟨false, false, true, false⟩) ∈
      build_char_set ⟨false, false, true, false⟩) :
    generate_password ⟨false, false, true, false⟩ len "max" rand =
      GenResult.okWarning
        (draw rand (build_char_set ⟨false, false, true, false⟩)
          (100 * len.toNat) len.toNat) := by
  have hne : build_char_set ⟨false, false, true, false⟩ ≠ [] := by decide
  have hds : build_char_set ⟨false, false, true, false⟩ = digits := by decide
  rw [generate_eq _ len "max" rand hne]
  have := genLoop_all_fail
    (fun pw => check_password_strength pw "max")
    (fun i => draw rand (build_char_set ⟨false, false, true, false⟩)
      (i * len.toNat) len.toNat)
    0 100
    (fun j _ _ => all_digits_check_max_false _
      (fun c hc => hds ▸ draw_mem _ _ _ _ hrand c hc))
  simpa using this

/-- C8 witness at a concrete length and stream. -/
theorem c8_witness :
    generate_password ⟨false, false, true, false⟩ 2 "max" (fun _ _ => '7') =
      GenResult.okWarning
        (draw (fun _ _ => '7') (build_char_set ⟨false, false, true, false⟩)
          (100 * Int.toNat 2) (Int.toNat 2)) :=
  c8_digits_only_max 2 (fun _ _ => '7')
    (fun _ => by
      show '7' ∈ build_char_set ⟨false, false, true, false⟩
      decide)

/-- C9: the checker is deterministic — any two invocations on equal
inputs return the same boolean.  Purity holds by construction of the
embedding: the source function reads only the immutable module constants
and writes nothing, so it is a pure function of its two arguments. -/
theorem c9_checker_pure (s s' : List Char) (level level' : String)
    (hs : s = s') (hl : level = level') :
    check_password_strength s level = check_password_strength s' level' := by
  rw [hs, hl]

/-- C9 witness: a repeated concrete invocation. -/
theorem c9_witness :
    check_password_strength ['a'] "easy" = check_password_strength ['a'] "easy" :=
  c9_checker_pure ['a'] ['a'] "easy" "easy" rfl rfl

/-- C10: with a non-empty alphabet the call never errors, and the
returned password — on the success and on the warning path alike — has
exactly the maximum of the parsed length and 0 characters, each a member
of the derived alphabet; non-positive lengths are not rejected and yield
the empty password. -/
theorem c10_length_and_members (p : Policy) (len : Int) (level : String)
    (rand : Nat → List Char → Char) (h : build_char_set p ≠ [])
    (hrand : ∀ k, rand k (build_char_set p) ∈ build_char_set p) :
    (∀ msg, generate_password p len level rand ≠ GenResult.error msg) ∧
    (∀ pw, (generate_password p len level rand = GenResult.ok pw ∨
        generate_password p len level rand = GenResult.okWarning pw) →
      pw.length = len.toNat ∧ (∀ c ∈ pw, c ∈ build_char_set p) ∧
        (len ≤ 0 → pw = [])) := by
  rw [generate_eq p len level rand h]
  have hres := genLoop_shape
    (fun pw => check_password_strength pw level)
    (fun i => draw rand (build_char_set p) (i * len.toNat) len.toNat) 0 100
  constructor
  · intro msg heq
    rcases hres with ⟨pw0, h0⟩ | ⟨pw0, h0⟩ <;> rw [h0] at heq <;> cases heq
  · intro pw hpw
    have hdrawn : ∃ j, pw = draw rand (build_char_set p) (j * len.toNat) len.toNat := by
      rcases hpw with hok | hwarn
      · rcases genLoop_ok _ _ _ _ _ hok with ⟨_, j, _, _, rfl⟩
        exact ⟨j, rfl⟩
      · rcases genLoop_warn _ _ _ _ _ hwarn with ⟨rfl, _⟩
        exact ⟨0 + 100, rfl⟩
    rcases hdrawn with ⟨j, rfl⟩
    refine ⟨draw_length _ _ _ _, draw_mem _ _ _ _ hrand, ?_⟩
    intro hneg
    have h0 : len.toNat = 0 := Int.toNat_of_nonpos hneg
    simp [draw, h0]

/-- C10 witness at a concrete negative length. -/
theorem c10_witness :
    (∀ msg, generate_password ⟨true, true, true, true⟩ (-5) "easy"
        (fun _ _ => 'a') ≠ GenResult.error msg) ∧
    (∀ pw, (generate_password ⟨true, true, true, true⟩ (-5) "easy"
          (fun _ _ => 'a') = GenResult.ok pw ∨
        generate_password ⟨true, true, true, true⟩ (-5) "easy"
          (fun _ _ => 'a') = GenResult.okWarning pw) →
      pw.length = (-5 : Int).toNat ∧
        (∀ c ∈ pw, c ∈ build_char_set ⟨true, true, true, true⟩) ∧
        ((-5 : Int) ≤ 0 → pw = [])) :=
  c10_length_and_members ⟨true, true, true, true⟩ (-5) "easy" (fun _ _ => 'a')
    (by decide)
    (fun _ => by
      show 'a' ∈ build_char_set ⟨true, true, true, true⟩
      decide)

end PwGen
